import Mathlib

/-!
Shallow embedding of the report-aggregation core of the school-report
portal (`src/utils.py`): the learner-report aggregator `get_learner_by_id`
and the broadsheet builder `get_broadsheet_data`, together with the
SQLite queries they issue, modelled over an explicit relational store.

Modelling conventions:
* the three logical tables (`learners`, `subjects` + `grade_subjects`,
  `scores`) are lists of rows in store order;
* SQL `WHERE` is `List.filter`, an inner `JOIN` is a `flatMap` over the
  matching rows, `ORDER BY` a sort, `SELECT DISTINCT` a `dedup`;
* numeric score values are exact rationals (`ℚ`); a SQL `NULL` score is
  `Option.none`;
* Python truthiness of an optional string argument (`if term:`) is the
  `truthy` predicate: `None` and `""` are both falsy;
* Python's `round(x, 1)` is `round1` (round to one decimal place);
* Python's `None >= 80` raises `TypeError`; the corresponding outcome of
  `get_learner_by_id` is the `GliResult.typeError` result.
-/

/-- Row of the `learners` table: `SELECT id, full_name, grade`. -/
structure LearnerRow where
  id : Nat
  full_name : String
  grade : String
deriving DecidableEq

/-- Row of the `subjects` table: `SELECT id, name`. -/
structure SubjectRow where
  id : Nat
  name : String
deriving DecidableEq

/-- Row of the `grade_subjects` membership table. -/
structure GradeSubjectRow where
  grade : String
  subject_id : Nat
deriving DecidableEq

/-- Row of the `scores` table; `score` is `none` for a SQL `NULL`. -/
structure ScoreRow where
  learner_id : Nat
  subject_id : Nat
  term : String
  exam_type : String
  score : Option ℚ
deriving DecidableEq

/-- The relational store backing the application (read-only snapshot). -/
structure Store where
  learners : List LearnerRow
  subjects : List SubjectRow
  grade_subjects : List GradeSubjectRow
  scores : List ScoreRow
deriving DecidableEq

/-- Python truthiness of an optional string: `None` and `""` are falsy,
every other string is truthy (`if term:` in the source). -/
def truthy : Option String → Bool
  | none => false
  | some s => !(s == "")

/-- Code-point-wise lexicographic `≤` on character lists; byte-wise
UTF-8 comparison (SQLite's BINARY collation used by `ORDER BY` on text)
coincides with code-point order. -/
def lexLe : List Char → List Char → Bool
  | [], _ => true
  | _ :: _, [] => false
  | a :: as, b :: bs =>
    if a.toNat < b.toNat then true
    else if b.toNat < a.toNat then false
    else lexLe as bs

/-- Lexicographic `≤` on strings, as used by `ORDER BY s.name` /
`ORDER BY full_name`. -/
def strLe (a b : String) : Bool := lexLe a.data b.data

theorem lexLe_total (a b : List Char) : lexLe a b = true ∨ lexLe b a = true := by
  induction a generalizing b with
  | nil => left; rfl
  | cons x xs ih =>
    cases b with
    | nil => right; rfl
    | cons y ys =>
      by_cases hxy : x.toNat < y.toNat
      · left; simp [lexLe, hxy]
      · by_cases hyx : y.toNat < x.toNat
        · right; simp [lexLe, hyx]
        · rcases ih ys with h | h
          · left; simp [lexLe, hxy, hyx, h]
          · right; simp [lexLe, hxy, hyx, h]

theorem lexLe_trans {a b c : List Char} (hab : lexLe a b = true)
    (hbc : lexLe b c = true) : lexLe a c = true := by
  induction a generalizing b c with
  | nil => rfl
  | cons x xs ih =>
    cases b with
    | nil => simp [lexLe] at hab
    | cons y ys =>
      cases c with
      | nil => simp [lexLe] at hbc
      | cons z zs =>
        simp only [lexLe] at hab hbc ⊢
        split_ifs at hab hbc ⊢ with h1 h2 h3 h4 h5 h6 <;>
          first
            | rfl
            | omega
            | (exact ih hab hbc)

theorem strLe_total (a b : String) : strLe a b = true ∨ strLe b a = true :=
  lexLe_total a.data b.data

theorem strLe_trans {a b c : String} (hab : strLe a b = true)
    (hbc : strLe b c = true) : strLe a c = true :=
  lexLe_trans hab hbc

instance : DecidableRel (fun a b : String => strLe a b = true) :=
  fun a b => inferInstanceAs (Decidable (strLe a b = true))

instance : IsTotal String (fun a b => strLe a b = true) := ⟨strLe_total⟩

instance : IsTrans String (fun a b => strLe a b = true) :=
  ⟨fun _ _ _ => strLe_trans⟩

/-- A row of the score/subject join in `get_learner_by_id`:
`SELECT s.id AS subject_id, s.name AS subject, sc.exam_type, sc.term, sc.score`. -/
structure JoinedScore where
  subject_id : Nat
  subject : String
  exam_type : String
  term : String
  score : Option ℚ
deriving DecidableEq

/-- `ORDER BY s.name` on the joined score rows. -/
def bySubject (a b : JoinedScore) : Prop := strLe a.subject b.subject = true

instance : DecidableRel bySubject :=
  fun a b => inferInstanceAs (Decidable (strLe a.subject b.subject = true))

instance : IsTotal JoinedScore bySubject := ⟨fun a b => strLe_total _ _⟩

instance : IsTrans JoinedScore bySubject := ⟨fun _ _ _ => strLe_trans⟩

/-- `ORDER BY full_name` on learner rows. -/
def byFullName (a b : LearnerRow) : Prop := strLe a.full_name b.full_name = true

instance : DecidableRel byFullName :=
  fun a b => inferInstanceAs (Decidable (strLe a.full_name b.full_name = true))

instance : IsTotal LearnerRow byFullName := ⟨fun a b => strLe_total _ _⟩

instance : IsTrans LearnerRow byFullName := ⟨fun _ _ _ => strLe_trans⟩

/-- `ORDER BY s.name` on subject rows. -/
def byName (a b : SubjectRow) : Prop := strLe a.name b.name = true

instance : DecidableRel byName :=
  fun a b => inferInstanceAs (Decidable (strLe a.name b.name = true))

instance : IsTotal SubjectRow byName := ⟨fun a b => strLe_total _ _⟩

instance : IsTrans SubjectRow byName := ⟨fun _ _ _ => strLe_trans⟩

/-- String `≤` as a propositional relation for sorting plain strings. -/
def strLeProp (a b : String) : Prop := strLe a b = true

instance : DecidableRel strLeProp :=
  fun a b => inferInstanceAs (Decidable (strLe a b = true))

instance : IsTotal String strLeProp := ⟨strLe_total⟩

instance : IsTrans String strLeProp := ⟨fun _ _ _ => strLe_trans⟩

/-- Python's `round(x, 1)`: round to one decimal place. -/
def round1 (q : ℚ) : ℚ := ((round (10 * q) : ℤ) : ℚ) / 10

/-- SQL `AVG(score)`: mean of the non-NULL values, `NULL` when there are
none. -/
def sqlAvg (xs : List (Option ℚ)) : Option ℚ :=
  match xs.filterMap id with
  | [] => none
  | v :: vs => some ((v :: vs).sum / ((v :: vs).length : ℚ))

/-- SQL `MAX(score)`: maximum of the non-NULL values, `NULL` when there
are none. -/
def sqlMax (xs : List (Option ℚ)) : Option ℚ :=
  (xs.filterMap id).max?

/-- The `subjects_sql` query of `get_learner_by_id`:
`SELECT s.id, s.name FROM subjects s JOIN grade_subjects gs ON
gs.subject_id = s.id WHERE gs.grade = ? ORDER BY s.name`. -/
def subjectsForGrade (st : Store) (g : String) : List SubjectRow :=
  List.insertionSort byName
    (st.subjects.flatMap (fun s =>
      (st.grade_subjects.filter
        (fun gs => gs.subject_id == s.id && gs.grade == g)).map (fun _ => s)))

/-- The unsorted rows of the `scores_sql` query of `get_learner_by_id`:
scores of the given learner joined to `subjects`, optionally narrowed by
exact `term` / `exam_type` match when those arguments are truthy. -/
def rawScores (st : Store) (learner_id : Nat)
    (term exam_type : Option String) : List JoinedScore :=
  st.scores.flatMap (fun sc =>
    if sc.learner_id == learner_id
        && (if truthy term then sc.term == term.getD "" else true)
        && (if truthy exam_type then sc.exam_type == exam_type.getD "" else true)
    then (st.subjects.filter (fun s => s.id == sc.subject_id)).map (fun s =>
      { subject_id := s.id, subject := s.name, exam_type := sc.exam_type,
        term := sc.term, score := sc.score })
    else [])

/-- The `scores_sql` query result (`... ORDER BY s.name`). -/
def selectedScores (st : Store) (learner_id : Nat)
    (term exam_type : Option String) : List JoinedScore :=
  List.insertionSort bySubject (rawScores st learner_id term exam_type)

/-- The `class_avg_sql` selection: `score` column of all rows of `scores`
(every learner, no grade restriction) with the given `subject_id`,
narrowed by the same `term` / `exam_type` filters as the learner's own
score query. -/
def classScores (st : Store) (subject_id : Nat)
    (term exam_type : Option String) : List (Option ℚ) :=
  (st.scores.filter (fun sc =>
    sc.subject_id == subject_id
      && (if truthy term then sc.term == term.getD "" else true)
      && (if truthy exam_type then sc.exam_type == exam_type.getD "" else true))).map
    (fun sc => sc.score)

/-- The remarks banding of `get_learner_by_id` (applied to a non-NULL
raw score). -/
def remarks (s : ℚ) : String :=
  if 80 ≤ s then "exceeding expectations"
  else if 65 ≤ s then "meeting expectations"
  else if 50 ≤ s then "approaching expectations"
  else "below expectations"

/-- One entry of the `marks` list built by `get_learner_by_id`. -/
structure Mark where
  subject : String
  exam_type : String
  score : ℚ
  class_average : Option ℚ
  remarks : String
  class_highest : Option ℚ
deriving DecidableEq

/-- The per-row body of the marks loop.  Returns `none` when the row's
score is NULL: the source then evaluates `score >= 80` against `None`,
which raises `TypeError`. -/
def buildMarks (st : Store) (term exam_type : Option String) :
    List JoinedScore → Option (List Mark)
  | [] => some []
  | r :: rest =>
    match r.score with
    | none => none
    | some sc =>
      match buildMarks st term exam_type rest with
      | none => none
      | some ms =>
        some ({ subject := r.subject, exam_type := r.exam_type, score := sc,
                class_average :=
                  (sqlAvg (classScores st r.subject_id term exam_type)).map round1,
                remarks := remarks sc,
                class_highest :=
                  (sqlMax (classScores st r.subject_id term exam_type)).map round1 } :: ms)

/-- `total_score_obtained`: running sum of the selected scores,
counting a NULL score as `0`. -/
def totalObtained (rows : List JoinedScore) : ℚ :=
  (rows.map (fun r => r.score.getD 0)).sum

/-- `total_score_obtainable`: `100` per selected score row. -/
def totalObtainable (rows : List JoinedScore) : ℚ :=
  100 * rows.length

/-- `average_percentage`: `round(obtained / obtainable * 100, 1)` guarded
by the truthiness of `total_score_obtainable` (zero gives `0`, and the
division is not performed). -/
def averagePercentage (obtained obtainable : ℚ) : ℚ :=
  if obtainable = 0 then 0 else round1 (obtained / obtainable * 100)

/-- The learner-report record assembled by `get_learner_by_id`:
the learner row's own columns, the marks list, the two running totals
over the selected score rows, the average percentage and the placeholder
comment/date fields (always `None` in the source). -/
structure LearnerReport where
  id : Nat
  full_name : String
  grade : String
  marks : List Mark
  total_score_obtainable : ℚ
  total_score_obtained : ℚ
  average_percentage : ℚ
  teacher_comments : Option String
  principal_comments : Option String
  teacher_date : Option String
  principal_date : Option String
deriving DecidableEq

/-- Assembly of the returned learner dict from the learner row, the
selected score rows and the marks list built from them. -/
def mkReport (learner : LearnerRow) (scores : List JoinedScore)
    (marks : List Mark) : LearnerReport :=
  { id := learner.id
    full_name := learner.full_name
    grade := learner.grade
    marks := marks
    total_score_obtainable := totalObtainable scores
    total_score_obtained := totalObtained scores
    average_percentage :=
      averagePercentage (totalObtained scores) (totalObtainable scores)
    teacher_comments := none
    principal_comments := none
    teacher_date := none
    principal_date := none }

/-- Outcome of `get_learner_by_id`: `notFound` models the `None` return
(no learner row), `typeError` the Python `TypeError` raised by evaluating
`score >= 80` against a NULL score, `ok` a returned report dict. -/
inductive GliResult where
  | notFound
  | typeError
  | ok (rep : LearnerReport)
deriving DecidableEq

/-- Embedding of `get_learner_by_id(learner_id, term, exam_type, grade)`
from `src/utils.py`.  The learner lookup is `WHERE id = ?` + `fetchone`;
`subject_map` is built from the grade-subject membership of the effective
grade exactly as in the source — and, as in the source, is never used
afterwards. -/
def get_learner_by_id (st : Store) (learner_id : Nat)
    (term exam_type grade : Option String) : GliResult :=
  match (st.learners.filter (fun l => l.id == learner_id)).head? with
  | none => GliResult.notFound
  | some learner =>
    let grade_val := if truthy grade then grade.getD "" else learner.grade
    let subject_map := (subjectsForGrade st grade_val).map (fun s => (s.id, s.name))
    let scores := selectedScores st learner_id term exam_type
    match buildMarks st term exam_type scores with
    | none => GliResult.typeError
    | some marks => GliResult.ok (mkReport learner scores marks)

/-- The subjects appearing in a returned report's marks (empty for a
non-`ok` result); observer used to state claims about the marks list. -/
def reportSubjects : GliResult → List String
  | GliResult.ok rep => rep.marks.map (fun m => m.subject)
  | _ => []

/-- The report of an `ok` result, with a fallback for the other
outcomes; observer used to state concrete-instance theorems. -/
def repOf : GliResult → LearnerReport → LearnerReport
  | GliResult.ok rep, _ => rep
  | _, d => d

/-- Placeholder report used as the `repOf` fallback. -/
def emptyReport : LearnerReport :=
  { id := 0, full_name := "", grade := "", marks := [],
    total_score_obtainable := 0, total_score_obtained := 0,
    average_percentage := 0, teacher_comments := none,
    principal_comments := none, teacher_date := none, principal_date := none }

/-- A Python dict mapping subject names to (possibly NULL) scores,
modelled as an insertion-ordered association list with unique keys. -/
abbrev Dict := List (String × Option ℚ)

/-- The in-place overwrite of one binding by `d[k] = v` when the key is
already present: the binding at `k` gets the new value, others are kept. -/
def setKey (k : String) (v : Option ℚ) (p : String × Option ℚ) :
    String × Option ℚ :=
  if p.1 = k then (k, v) else p

/-- Python `d[k] = v`: overwrite the value at an existing key in place,
otherwise append the new binding at the end. -/
def dictInsert (d : Dict) (k : String) (v : Option ℚ) : Dict :=
  if d.any (fun p => p.1 == k) then d.map (setKey k v)
  else d ++ [(k, v)]

/-- Python `k in d` / `d[k]` lookup: `some v` when the key is bound,
`none` when the key is absent from the mapping. -/
def dictGet (d : Dict) (k : String) : Option (Option ℚ) :=
  match d with
  | [] => none
  | (k', v) :: rest => if k' = k then some v else dictGet rest k

/-- A row of the broadsheet `marks_sql` query:
`SELECT sc.learner_id, s.name AS subject, sc.score FROM scores sc JOIN
subjects s ON s.id = sc.subject_id WHERE sc.learner_id IN (...)`. -/
structure MarkRow where
  learner_id : Nat
  subject : String
  score : Option ℚ
deriving DecidableEq

/-- A learner entry of the broadsheet: id, full name and the pivoted
subject-name → score mapping. -/
structure BLearner where
  id : Nat
  full_name : String
  marks : Dict
deriving DecidableEq

/-- The record returned by `get_broadsheet_data`. -/
structure Broadsheet where
  subjects : List String
  learners : List BLearner
deriving DecidableEq

/-- The broadsheet `subjects_sql` query:
`SELECT DISTINCT s.name FROM subjects s ORDER BY s.name` — the global
subject list, not filtered to the grade. -/
def globalSubjects (st : Store) : List String :=
  List.insertionSort strLeProp ((st.subjects.map (fun s => s.name)).dedup)

/-- The broadsheet `learners_sql` query:
`SELECT id, full_name FROM learners WHERE grade = ? ORDER BY full_name`. -/
def broadsheetLearners (st : Store) (grade : String) : List LearnerRow :=
  List.insertionSort byFullName (st.learners.filter (fun l => l.grade == grade))

/-- The broadsheet `marks_sql` query for a batch of learner ids (the
`IN (...)` list); no `ORDER BY`, so rows keep store order. -/
def marksRows (st : Store) (ids : List Nat) : List MarkRow :=
  st.scores.flatMap (fun sc =>
    if ids.contains sc.learner_id then
      (st.subjects.filter (fun s => s.id == sc.subject_id)).map (fun s =>
        { learner_id := sc.learner_id, subject := s.name, score := sc.score })
    else [])

/-- The `marks_sql` rows fetched by `get_broadsheet_data` for a grade. -/
def broadsheetRows (st : Store) (grade : String) : List MarkRow :=
  marksRows st ((broadsheetLearners st grade).map (fun l => l.id))

/-- The per-learner effect of one pivot iteration when the learner key is
already present: that learner's dict receives the `subject := score`
binding, other learners' dicts are kept. -/
def updEntry (lid : Nat) (sb : String) (v : Option ℚ) (p : Nat × Dict) :
    Nat × Dict :=
  if p.1 = lid then (p.1, dictInsert p.2 sb v) else p

/-- One iteration of the pivot loop:
`marks_by_learner.setdefault(lid, {})[r["subject"]] = r["score"]`. -/
def pivotStep (acc : List (Nat × Dict)) (r : MarkRow) : List (Nat × Dict) :=
  if acc.any (fun p => p.1 == r.learner_id) then
    acc.map (updEntry r.learner_id r.subject r.score)
  else acc ++ [(r.learner_id, dictInsert [] r.subject r.score)]

/-- The pivot loop over all fetched mark rows. -/
def pivot (rows : List MarkRow) : List (Nat × Dict) :=
  rows.foldl pivotStep []

/-- `marks_by_learner.get(l_id, {})`: the pivoted dict of a learner,
defaulting to the empty mapping. -/
def marksFor (acc : List (Nat × Dict)) (lid : Nat) : Dict :=
  match acc with
  | [] => []
  | (k, d) :: rest => if k = lid then d else marksFor rest lid

/-- Embedding of `get_broadsheet_data(grade)` from `src/utils.py`. -/
def get_broadsheet_data (st : Store) (grade : String) : Broadsheet :=
  let subjects := globalSubjects st
  let learners := broadsheetLearners st grade
  if learners.isEmpty then { subjects := subjects, learners := [] }
  else
    let rows := broadsheetRows st grade
    let marks_by_learner := pivot rows
    { subjects := subjects
      learners := learners.map (fun l =>
        { id := l.id, full_name := l.full_name,
          marks := marksFor marks_by_learner l.id }) }

/-! ### Helper lemmas about `get_learner_by_id` -/

theorem gli_ok_elim {st : Store} {lid : Nat} {t et g : Option String}
    {rep : LearnerReport}
    (h : get_learner_by_id st lid t et g = GliResult.ok rep) :
    ∃ learner, (st.learners.filter (fun l => l.id == lid)).head? = some learner ∧
      ∃ ms, buildMarks st t et (selectedScores st lid t et) = some ms ∧
        rep = mkReport learner (selectedScores st lid t et) ms := by
  simp only [get_learner_by_id] at h
  split at h
  · exact absurd h (by simp)
  · rename_i learner hl
    split at h
    · exact absurd h (by simp)
    · rename_i ms hm
      exact ⟨learner, hl, ms, hm, by cases h; rfl⟩

theorem buildMarks_map_subject {st : Store} {t et : Option String} :
    ∀ {rows : List JoinedScore} {ms : List Mark},
      buildMarks st t et rows = some ms →
      ms.map (fun m => m.subject) = rows.map (fun r => r.subject)
  | [], ms, h => by
    simp only [buildMarks, Option.some_inj] at h
    subst h; rfl
  | r :: rest, ms, h => by
    simp only [buildMarks] at h
    cases hsc : r.score with
    | none => rw [hsc] at h; exact absurd h (by simp)
    | some sc =>
      rw [hsc] at h
      cases hrec : buildMarks st t et rest with
      | none => rw [hrec] at h; exact absurd h (by simp)
      | some ms' =>
        rw [hrec, Option.some_inj] at h
        subst h
        simpa using buildMarks_map_subject hrec

theorem buildMarks_mem_spec {st : Store} {t et : Option String} :
    ∀ {rows : List JoinedScore} {ms : List Mark},
      buildMarks st t et rows = some ms →
      ∀ m ∈ ms, ∃ r ∈ rows,
        m.subject = r.subject ∧ r.score = some m.score ∧
        m.remarks = remarks m.score ∧
        m.class_average = (sqlAvg (classScores st r.subject_id t et)).map round1 ∧
        m.class_highest = (sqlMax (classScores st r.subject_id t et)).map round1
  | [], ms, h => by
    simp only [buildMarks, Option.some_inj] at h
    subst h; intro m hm; cases hm
  | r :: rest, ms, h => by
    simp only [buildMarks] at h
    cases hsc : r.score with
    | none => rw [hsc] at h; exact absurd h (by simp)
    | some sc =>
      rw [hsc] at h
      cases hrec : buildMarks st t et rest with
      | none => rw [hrec] at h; exact absurd h (by simp)
      | some ms' =>
        rw [hrec, Option.some_inj] at h
        subst h
        intro m hm
        rcases List.mem_cons.mp hm with hm | hm
        · subst hm
          exact ⟨r, List.mem_cons_self _ _, rfl, hsc, rfl, rfl, rfl⟩
        · rcases buildMarks_mem_spec hrec m hm with ⟨r', hr', hspec⟩
          exact ⟨r', List.mem_cons_of_mem _ hr', hspec⟩

theorem buildMarks_isSome {st : Store} {t et : Option String} :
    ∀ {rows : List JoinedScore}, (∀ r ∈ rows, r.score ≠ none) →
      ∃ ms, buildMarks st t et rows = some ms
  | [], _ => ⟨[], rfl⟩
  | r :: rest, h => by
    rcases Option.ne_none_iff_exists'.mp (h r (List.mem_cons_self _ _)) with ⟨sc, hsc⟩
    rcases @buildMarks_isSome st t et rest
      (fun r' hr' => h r' (List.mem_cons_of_mem _ hr')) with ⟨ms, hms⟩
    exact ⟨({ subject := r.subject, exam_type := r.exam_type, score := sc,
              class_average := (sqlAvg (classScores st r.subject_id t et)).map round1,
              remarks := remarks sc,
              class_highest := (sqlMax (classScores st r.subject_id t et)).map round1 } : Mark) :: ms,
      by simp only [buildMarks, hsc, hms]⟩

theorem classScores_term_falsy {st : Store} {sid : Nat} {t et : Option String}
    (h : truthy t = false) :
    classScores st sid t et = classScores st sid none et := by
  simp only [classScores, h]
  simp [truthy]

theorem classScores_exam_falsy {st : Store} {sid : Nat} {t et : Option String}
    (h : truthy et = false) :
    classScores st sid t et = classScores st sid t none := by
  simp only [classScores, h]
  simp [truthy]

theorem rawScores_term_falsy {st : Store} {lid : Nat} {t et : Option String}
    (h : truthy t = false) :
    rawScores st lid t et = rawScores st lid none et := by
  simp only [rawScores, h]
  simp [truthy]

theorem rawScores_exam_falsy {st : Store} {lid : Nat} {t et : Option String}
    (h : truthy et = false) :
    rawScores st lid t et = rawScores st lid t none := by
  simp only [rawScores, h]
  simp [truthy]

theorem buildMarks_term_falsy {st : Store} {t et : Option String}
    (h : truthy t = false) :
    ∀ rows, buildMarks st t et rows = buildMarks st none et rows
  | [] => rfl
  | r :: rest => by
    simp only [buildMarks, classScores_term_falsy h,
      buildMarks_term_falsy h rest]

theorem buildMarks_exam_falsy {st : Store} {t et : Option String}
    (h : truthy et = false) :
    ∀ rows, buildMarks st t et rows = buildMarks st t none rows
  | [] => rfl
  | r :: rest => by
    simp only [buildMarks, classScores_exam_falsy h,
      buildMarks_exam_falsy h rest]

/-! ### Helper lemmas about the broadsheet pivot -/


/-- `oalt a b` is `a` unless `a` is `none`, in which case it is `b`. -/
def oalt {α : Type} : Option α → Option α → Option α
  | some x, _ => some x
  | none, b => b

theorem oalt_none_right {α : Type} (a : Option α) : oalt a none = a := by
  cases a <;> rfl

theorem setKey_fst_eq {k : String} {v : Option ℚ} {a : String} {b : Option ℚ}
    (h : a = k) : setKey k v (a, b) = (k, v) := by simp [setKey, h]

theorem setKey_fst_ne {k : String} {v : Option ℚ} {a : String} {b : Option ℚ}
    (h : ¬a = k) : setKey k v (a, b) = (a, b) := by simp [setKey, h]

theorem dictGet_map_setKey (d : Dict) (k : String) (v : Option ℚ) (k' : String) :
    dictGet (d.map (setKey k v)) k' =
      if k' = k then (dictGet d k).map (fun _ => v) else dictGet d k' := by
  induction d with
  | nil => by_cases h : k' = k <;> simp [dictGet, h]
  | cons p rest ih =>
    obtain ⟨a, b⟩ := p
    by_cases hak : a = k
    · rw [List.map_cons, setKey_fst_eq hak]
      subst hak
      by_cases hk' : k' = a
      · subst hk'
        simp [dictGet]
      · simp [dictGet, hk', Ne.symm hk', ih]
    · rw [List.map_cons, setKey_fst_ne hak]
      by_cases hk' : a = k'
      · subst hk'
        simp [dictGet, hak]
      · simp [dictGet, hak, hk', ih]

theorem dictGet_append_one (d : Dict) (k : String) (v : Option ℚ) (k' : String) :
    dictGet (d ++ [(k, v)]) k' =
      oalt (dictGet d k') (if k' = k then some v else none) := by
  induction d with
  | nil =>
    by_cases h : k = k'
    · subst h; simp [dictGet, oalt]
    · simp [dictGet, h, Ne.symm h, oalt]
  | cons p rest ih =>
    obtain ⟨a, b⟩ := p
    by_cases ha : a = k'
    · subst ha; simp [dictGet, oalt]
    · simp [dictGet, ha, ih]

theorem dictGet_none_of_not_any (d : Dict) (k : String)
    (h : d.any (fun p => p.1 == k) = false) : dictGet d k = none := by
  induction d with
  | nil => rfl
  | cons p rest ih =>
    obtain ⟨a, b⟩ := p
    simp only [List.any_cons, Bool.or_eq_false_iff, beq_eq_false_iff_ne] at h
    simp [dictGet, h.1, ih (by simpa using h.2)]

theorem dictGet_isSome_of_any (d : Dict) (k : String)
    (h : d.any (fun p => p.1 == k) = true) : (dictGet d k).isSome = true := by
  induction d with
  | nil => simp at h
  | cons p rest ih =>
    obtain ⟨a, b⟩ := p
    by_cases ha : a = k
    · simp [dictGet, ha]
    · simp only [List.any_cons, Bool.or_eq_true_iff] at h
      rcases h with h | h
      · exact absurd (by simpa using h) ha
      · simp [dictGet, ha, ih h]

theorem dictGet_dictInsert (d : Dict) (k : String) (v : Option ℚ) (k' : String) :
    dictGet (dictInsert d k v) k' = if k' = k then some v else dictGet d k' := by
  unfold dictInsert
  by_cases hany : d.any (fun p => p.1 == k) = true
  · rw [if_pos hany, dictGet_map_setKey]
    by_cases hk : k' = k
    · subst hk
      rcases Option.isSome_iff_exists.mp (dictGet_isSome_of_any d k' hany) with ⟨w, hw⟩
      simp [hw]
    · simp [hk]
  · have hany' : d.any (fun p => p.1 == k) = false := by
      cases h : d.any (fun p => p.1 == k)
      · rfl
      · exact absurd h hany
    rw [if_neg hany, dictGet_append_one]
    by_cases hk : k' = k
    · subst hk
      rw [dictGet_none_of_not_any d k' hany']
      simp [oalt]
    · simp [hk, oalt_none_right]

theorem updEntry_fst_eq {lid : Nat} {sb : String} {v : Option ℚ} {a : Nat} {d : Dict}
    (h : a = lid) : updEntry lid sb v (a, d) = (a, dictInsert d sb v) := by
  simp [updEntry, h]

theorem updEntry_fst_ne {lid : Nat} {sb : String} {v : Option ℚ} {a : Nat} {d : Dict}
    (h : ¬a = lid) : updEntry lid sb v (a, d) = (a, d) := by
  simp [updEntry, h]

theorem marksFor_map_updEntry_ne (acc : List (Nat × Dict)) {lid L : Nat}
    (sb : String) (v : Option ℚ) (h : ¬L = lid) :
    marksFor (acc.map (updEntry L sb v)) lid = marksFor acc lid := by
  induction acc with
  | nil => rfl
  | cons p rest ih =>
    obtain ⟨a, d⟩ := p
    by_cases ha : a = L
    · rw [List.map_cons, updEntry_fst_eq ha]
      subst ha
      simp [marksFor, fun hh => h (hh : a = lid), ih]
    · rw [List.map_cons, updEntry_fst_ne ha]
      by_cases hal : a = lid
      · simp [marksFor, hal]
      · simp [marksFor, hal, ih]

theorem marksFor_map_updEntry_eq (acc : List (Nat × Dict)) {L : Nat}
    (sb : String) (v : Option ℚ) (h : acc.any (fun p => p.1 == L) = true) :
    marksFor (acc.map (updEntry L sb v)) L = dictInsert (marksFor acc L) sb v := by
  induction acc with
  | nil => simp at h
  | cons p rest ih =>
    obtain ⟨a, d⟩ := p
    by_cases ha : a = L
    · rw [List.map_cons, updEntry_fst_eq ha]
      simp [marksFor, ha]
    · rw [List.map_cons, updEntry_fst_ne ha]
      simp only [List.any_cons, Bool.or_eq_true_iff] at h
      rcases h with h | h
      · exact absurd (by simpa using h) ha
      · simp [marksFor, ha, ih h]

theorem marksFor_nil_of_not_any (acc : List (Nat × Dict)) {lid : Nat}
    (h : acc.any (fun p => p.1 == lid) = false) : marksFor acc lid = [] := by
  induction acc with
  | nil => rfl
  | cons p rest ih =>
    obtain ⟨a, d⟩ := p
    simp only [List.any_cons, Bool.or_eq_false_iff, beq_eq_false_iff_ne] at h
    simp [marksFor, h.1, ih (by simpa using h.2)]

theorem marksFor_append_any (acc l₂ : List (Nat × Dict)) {lid : Nat}
    (h : acc.any (fun p => p.1 == lid) = true) :
    marksFor (acc ++ l₂) lid = marksFor acc lid := by
  induction acc with
  | nil => simp at h
  | cons p rest ih =>
    obtain ⟨a, d⟩ := p
    by_cases ha : a = lid
    · simp [marksFor, ha]
    · simp only [List.any_cons, Bool.or_eq_true_iff] at h
      rcases h with h | h
      · exact absurd (by simpa using h) ha
      · simp [marksFor, ha, ih h]

theorem marksFor_append_one_not_any (acc : List (Nat × Dict)) {L : Nat} (d0 : Dict)
    {lid : Nat} (h : acc.any (fun p => p.1 == lid) = false) :
    marksFor (acc ++ [(L, d0)]) lid = if L = lid then d0 else [] := by
  induction acc with
  | nil => simp [marksFor]
  | cons p rest ih =>
    obtain ⟨a, d⟩ := p
    simp only [List.any_cons, Bool.or_eq_false_iff, beq_eq_false_iff_ne] at h
    simp [marksFor, h.1, ih (by simpa using h.2)]

theorem marksFor_pivotStep (acc : List (Nat × Dict)) (r : MarkRow) (lid : Nat) :
    marksFor (pivotStep acc r) lid =
      if r.learner_id = lid then dictInsert (marksFor acc lid) r.subject r.score
      else marksFor acc lid := by
  unfold pivotStep
  by_cases hany : acc.any (fun p => p.1 == r.learner_id) = true
  · rw [if_pos hany]
    by_cases hr : r.learner_id = lid
    · subst hr
      rw [marksFor_map_updEntry_eq acc r.subject r.score hany, if_pos rfl]
    · rw [marksFor_map_updEntry_ne acc r.subject r.score hr, if_neg hr]
  · have hany' : acc.any (fun p => p.1 == r.learner_id) = false := by
      cases h : acc.any (fun p => p.1 == r.learner_id)
      · rfl
      · exact absurd h hany
    rw [if_neg hany]
    by_cases hr : r.learner_id = lid
    · subst hr
      rw [marksFor_append_one_not_any acc _ hany', if_pos rfl, if_pos rfl,
        marksFor_nil_of_not_any acc hany']
    · rw [if_neg hr]
      by_cases hl : acc.any (fun p => p.1 == lid) = true
      · rw [marksFor_append_any acc _ hl]
      · have hl' : acc.any (fun p => p.1 == lid) = false := by
          cases h : acc.any (fun p => p.1 == lid)
          · rfl
          · exact absurd h hl
        rw [marksFor_append_one_not_any acc _ hl', if_neg hr,
          marksFor_nil_of_not_any acc hl']

theorem dictGet_marksFor_pivotStep (acc : List (Nat × Dict)) (r : MarkRow)
    (lid : Nat) (sb : String) :
    dictGet (marksFor (pivotStep acc r) lid) sb =
      if r.learner_id = lid ∧ r.subject = sb then some r.score
      else dictGet (marksFor acc lid) sb := by
  rw [marksFor_pivotStep]
  by_cases hr : r.learner_id = lid
  · rw [if_pos hr, dictGet_dictInsert]
    by_cases hs : r.subject = sb
    · rw [if_pos (hs.symm ▸ rfl), if_pos ⟨hr, hs⟩]
    · rw [if_neg (fun hh => hs (hh : sb = r.subject).symm), if_neg (fun hh => hs hh.2)]
  · rw [if_neg hr, if_neg (fun hh => hr hh.1)]

theorem pivot_foldl_lookup (rows : List MarkRow) (acc : List (Nat × Dict))
    (lid : Nat) (sb : String) :
    dictGet (marksFor (rows.foldl pivotStep acc) lid) sb =
      oalt (((rows.filter
              (fun r => r.learner_id == lid && r.subject == sb)).getLast?).map
            (fun r => r.score))
        (dictGet (marksFor acc lid) sb) := by
  induction rows generalizing acc with
  | nil => simp [oalt]
  | cons r rest ih =>
    rw [List.foldl_cons, ih (pivotStep acc r), dictGet_marksFor_pivotStep]
    by_cases hm : r.learner_id = lid ∧ r.subject = sb
    · rw [if_pos hm]
      have hfc : List.filter (fun r => r.learner_id == lid && r.subject == sb) (r :: rest)
          = r :: List.filter (fun r => r.learner_id == lid && r.subject == sb) rest := by
        simp [List.filter_cons, hm.1, hm.2]
      rw [hfc]
      cases hrest : rest.filter (fun r => r.learner_id == lid && r.subject == sb) with
      | nil => simp [List.getLast?_singleton, oalt]
      | cons x xs =>
        rw [List.getLast?_cons_cons]
        cases hx : (x :: xs).getLast? with
        | none => simp at hx
        | some y => simp [hx, oalt]
    · rw [if_neg hm]
      have hfc : List.filter (fun r => r.learner_id == lid && r.subject == sb) (r :: rest)
          = List.filter (fun r => r.learner_id == lid && r.subject == sb) rest := by
        by_cases h1 : r.learner_id = lid
        · by_cases h2 : r.subject = sb
          · exact absurd ⟨h1, h2⟩ hm
          · simp [List.filter_cons, h2]
        · simp [List.filter_cons, h1]
      rw [hfc]

theorem pivot_lookup (rows : List MarkRow) (lid : Nat) (sb : String) :
    dictGet (marksFor (pivot rows) lid) sb =
      ((rows.filter
          (fun r => r.learner_id == lid && r.subject == sb)).getLast?).map
        (fun r => r.score) := by
  rw [pivot, pivot_foldl_lookup]
  simp [marksFor, dictGet, oalt_none_right]

/-! ### Helper lemma about broadsheet membership -/

theorem broadsheet_marks_of_mem {st : Store} {g : String} {bl : BLearner}
    (h : bl ∈ (get_broadsheet_data st g).learners) :
    bl.marks = marksFor (pivot (broadsheetRows st g)) bl.id := by
  simp only [get_broadsheet_data] at h
  split at h
  · simp at h
  · simp only [List.mem_map] at h
    obtain ⟨l, _, heq⟩ := h
    subst heq
    rfl

/-! ### Concrete stores used as instances

`SW` is the sample store of the spec's round-trip test (one learner,
Math 80 and English 50); `B1`, `B2` and `B6` isolate the failing
behaviours found in the source. -/

/-- One learner "Alice" in grade G1 with scores Math 80, English 50. -/
def SW : Store :=
  { learners := [⟨1, "Alice", "G1"⟩]
    subjects := [⟨1, "Math"⟩, ⟨2, "English"⟩]
    grade_subjects := [⟨"G1", 1⟩, ⟨"G1", 2⟩]
    scores := [⟨1, 1, "Term 1", "Opener", some 80⟩, ⟨1, 2, "Term 1", "Opener", some 50⟩] }

/-- The report `get_learner_by_id` produces for learner 1 of `SW`. -/
def SWrep : LearnerReport :=
  { id := 1, full_name := "Alice", grade := "G1"
    marks := [⟨"English", "Opener", 50, some 50, "approaching expectations", some 50⟩,
              ⟨"Math", "Opener", 80, some 80, "exceeding expectations", some 80⟩]
    total_score_obtainable := 200, total_score_obtained := 130
    average_percentage := 65
    teacher_comments := none, principal_comments := none,
    teacher_date := none, principal_date := none }

/-- The English mark of `SWrep`, used to instantiate per-mark claims. -/
def markEnglish : Mark :=
  ⟨"English", "Opener", 50, some 50, "approaching expectations", some 50⟩

theorem SW_selected : selectedScores SW 1 none none =
    [⟨2, "English", "Opener", "Term 1", some 50⟩,
     ⟨1, "Math", "Opener", "Term 1", some 80⟩] := by
  simp +decide [selectedScores, rawScores, SW, truthy, List.insertionSort,
    List.orderedInsert, bySubject, strLe, lexLe]

theorem SW_eval : get_learner_by_id SW 1 none none none = GliResult.ok SWrep := by
  simp +decide [get_learner_by_id, SW, SWrep, selectedScores, rawScores, truthy,
    List.insertionSort, List.orderedInsert, bySubject, strLe, lexLe, buildMarks,
    classScores, sqlAvg, sqlMax, remarks, subjectsForGrade, byName, mkReport,
    totalObtained, totalObtainable, averagePercentage]
  norm_num [round1, round_eq]

/-- The broadsheet learner entry for Alice in `SW`. -/
def SWbl : BLearner :=
  { id := 1, full_name := "Alice", marks := [("Math", some 80), ("English", some 50)] }

theorem SW_bs : get_broadsheet_data SW "G1" =
    { subjects := ["English", "Math"], learners := [SWbl] } := by
  simp +decide [get_broadsheet_data, SW, SWbl, globalSubjects, broadsheetLearners,
    broadsheetRows, marksRows, pivot, pivotStep, dictInsert, setKey, updEntry, marksFor,
    List.insertionSort, List.orderedInsert, strLeProp, byFullName, strLe, lexLe,
    List.dedup]

/-- Store isolating the unused grade-subject membership: grade G1's
membership is exactly {Math}, while the learner's only score row is in
English (which is not in G1's membership). -/
def B1 : Store :=
  { learners := [⟨1, "Alice", "G1"⟩]
    subjects := [⟨1, "Math"⟩, ⟨2, "English"⟩]
    grade_subjects := [⟨"G1", 1⟩]
    scores := [⟨1, 2, "Term 1", "Opener", some 70⟩] }

/-- Store isolating the NULL-score crash: the learner's only selected
score row has a NULL score. -/
def B2 : Store :=
  { learners := [⟨1, "Alice", "G1"⟩]
    subjects := [⟨1, "Math"⟩]
    grade_subjects := [⟨"G1", 1⟩]
    scores := [⟨1, 1, "Term 1", "Opener", none⟩] }

/-- Store for the error-handling counterexample: learner 1 exists but
has a NULL score row. -/
def B6 : Store :=
  { learners := [⟨1, "Bob", "G1"⟩]
    subjects := [⟨1, "Math"⟩]
    grade_subjects := []
    scores := [⟨1, 1, "Term 2", "Midterm", none⟩] }

theorem B2_selected : selectedScores B2 1 none none =
    [⟨1, "Math", "Opener", "Term 1", none⟩] := by
  simp +decide [selectedScores, rawScores, B2, truthy, List.insertionSort,
    List.orderedInsert, bySubject, strLe, lexLe]

theorem B6_eval : get_learner_by_id B6 1 none none none = GliResult.typeError := by
  simp +decide [get_learner_by_id, B6, selectedScores, rawScores, truthy,
    List.insertionSort, List.orderedInsert, bySubject, strLe, lexLe, buildMarks]

/-! ### Claim theorems -/

/-- C1: the claim fails on the code.  The source queries the grade-subject
membership of the effective grade into `subject_map` but never uses it:
the set of subjects in a report's marks is exactly the subjects of the
learner's selected score rows, and the `grade` argument has no effect on
the result at all.  On store `B1` (grade G1's membership is {Math}, the
learner's only score row is in English) the report's marks carry subject
"English" while the effective grade's membership is ["Math"]. -/
theorem C1_subjects_from_scores_not_membership :
    (∀ (st : Store) (lid : Nat) (t et g g' : Option String),
      get_learner_by_id st lid t et g = get_learner_by_id st lid t et g') ∧
    reportSubjects (get_learner_by_id B1 1 none none none) = ["English"] ∧
    (subjectsForGrade B1 "G1").map (fun s => s.name) = ["Math"] := by
  refine ⟨fun st lid t et g g' => by unfold get_learner_by_id; rfl, ?_, ?_⟩
  · simp +decide [get_learner_by_id, B1, reportSubjects, selectedScores, rawScores,
      truthy, List.insertionSort, List.orderedInsert, bySubject, strLe, lexLe,
      buildMarks, classScores, sqlAvg, sqlMax, remarks, subjectsForGrade, byName,
      mkReport, totalObtained, totalObtainable, averagePercentage]
  · simp +decide [subjectsForGrade, B1, List.insertionSort, List.orderedInsert,
      byName, strLe, lexLe]

/-- C2: the claim fails on the code.  On store `B2` the learner's only
selected score row has a NULL score; the source then evaluates
`score >= 80` against `None`, raising `TypeError` (the `typeError`
outcome of the model) — so the remarks banding IS applied to the null
value instead of being skipped. -/
theorem C2_null_score_remarks_type_error :
    selectedScores B2 1 none none = [⟨1, "Math", "Opener", "Term 1", none⟩] ∧
    get_learner_by_id B2 1 none none none = GliResult.typeError := by
  refine ⟨B2_selected, ?_⟩
  simp +decide [get_learner_by_id, B2, selectedScores, rawScores, truthy,
    List.insertionSort, List.orderedInsert, bySubject, strLe, lexLe, buildMarks]

/-- C3: in every returned report, `average_percentage` is `0` when the
obtainable total is `0`, and otherwise
`round(total_obtained / total_obtainable * 100, 1)`; the division sits
only in the guarded branch. -/
theorem C3_average_percentage_zero_guard (st : Store) (lid : Nat)
    (t et g : Option String) (rep : LearnerReport)
    (h : get_learner_by_id st lid t et g = GliResult.ok rep) :
    (rep.total_score_obtainable = 0 → rep.average_percentage = 0) ∧
    (rep.total_score_obtainable ≠ 0 →
      rep.average_percentage =
        round1 (rep.total_score_obtained / rep.total_score_obtainable * 100)) := by
  rcases gli_ok_elim h with ⟨learner, -, ms, -, hrep⟩
  subst hrep
  constructor
  · intro h0
    simp only [mkReport] at h0 ⊢
    rw [averagePercentage, if_pos h0]
  · intro h0
    simp only [mkReport] at h0 ⊢
    rw [averagePercentage, if_neg h0]

theorem C3_average_percentage_zero_guard_witness :
    (SWrep.total_score_obtainable = 0 → SWrep.average_percentage = 0) ∧
    (SWrep.total_score_obtainable ≠ 0 →
      SWrep.average_percentage =
        round1 (SWrep.total_score_obtained / SWrep.total_score_obtainable * 100)) :=
  C3_average_percentage_zero_guard SW 1 none none none SWrep SW_eval

/-- C4: the remarks banding of a non-null score is exactly one of the
four bands with closed lower bounds: `≥ 80` exceeding, `[65, 80)`
meeting, `[50, 65)` approaching, `< 50` below. -/
theorem C4_remarks_band_boundaries (s : ℚ) :
    (remarks s = "exceeding expectations" ∨ remarks s = "meeting expectations" ∨
      remarks s = "approaching expectations" ∨ remarks s = "below expectations") ∧
    (remarks s = "exceeding expectations" ↔ 80 ≤ s) ∧
    (remarks s = "meeting expectations" ↔ 65 ≤ s ∧ s < 80) ∧
    (remarks s = "approaching expectations" ↔ 50 ≤ s ∧ s < 65) ∧
    (remarks s = "below expectations" ↔ s < 50) := by
  by_cases h1 : 80 ≤ s
  · have e : remarks s = "exceeding expectations" := by rw [remarks, if_pos h1]
    rw [e]
    simp +decide
    repeat' constructor
    all_goals intros
    all_goals linarith
  · by_cases h2 : 65 ≤ s
    · have e : remarks s = "meeting expectations" := by
        rw [remarks, if_neg h1, if_pos h2]
      rw [e]
      simp +decide
      repeat' constructor
      all_goals intros
      all_goals linarith
    · by_cases h3 : 50 ≤ s
      · have e : remarks s = "approaching expectations" := by
          rw [remarks, if_neg h1, if_neg h2, if_pos h3]
        rw [e]
        simp +decide
        repeat' constructor
        all_goals intros
        all_goals linarith
      · have e : remarks s = "below expectations" := by
          rw [remarks, if_neg h1, if_neg h2, if_neg h3]
        rw [e]
        simp +decide
        repeat' constructor
        all_goals intros
        all_goals linarith

/-- C5: every mark of a returned report carries class statistics computed
by `classScores` — the scores of ALL learners' rows for that subject,
narrowed by the same term/exam-type truthiness filters as the learner's
own query and by no grade condition — and both statistics are `none`
(SQL NULL, not `some 0`; `ℚ` has no NaN) whenever no qualifying score
row exists for the subject. -/
theorem C5_class_stats_per_subject (st : Store) (lid : Nat)
    (t et g : Option String) (rep : LearnerReport)
    (h : get_learner_by_id st lid t et g = GliResult.ok rep) :
    ∀ m ∈ rep.marks, ∃ r ∈ selectedScores st lid t et,
      m.subject = r.subject ∧
      m.class_average = (sqlAvg (classScores st r.subject_id t et)).map round1 ∧
      m.class_highest = (sqlMax (classScores st r.subject_id t et)).map round1 ∧
      (classScores st r.subject_id t et = [] →
        m.class_average = none ∧ m.class_highest = none) := by
  rcases gli_ok_elim h with ⟨learner, -, ms, hms, hrep⟩
  subst hrep
  intro m hm
  simp only [mkReport] at hm
  rcases buildMarks_mem_spec hms m hm with ⟨r, hr, hsub, hsc, hrem, hca, hch⟩
  refine ⟨r, hr, hsub, hca, hch, fun hempty => ?_⟩
  constructor
  · rw [hca, hempty]; rfl
  · rw [hch, hempty]; rfl

theorem C5_class_stats_per_subject_witness :
    ∃ r ∈ selectedScores SW 1 none none,
      markEnglish.subject = r.subject ∧
      markEnglish.class_average =
        (sqlAvg (classScores SW r.subject_id none none)).map round1 ∧
      markEnglish.class_highest =
        (sqlMax (classScores SW r.subject_id none none)).map round1 ∧
      (classScores SW r.subject_id none none = [] →
        markEnglish.class_average = none ∧ markEnglish.class_highest = none) :=
  C5_class_stats_per_subject SW 1 none none none SWrep SW_eval markEnglish
    (by simp [SWrep, markEnglish])

/-- C6 (amended): `get_learner_by_id` returns NotFound exactly when no
learner row matches the id; and for every existing learner whose
selected score rows all have non-null scores, a report is returned.
(The original claim promised a report for EVERY existing learner; a NULL
score makes the source raise `TypeError` instead — see the
counterexample.) -/
theorem C6_notfound_iff_report (st : Store) (lid : Nat) (t et g : Option String) :
    (get_learner_by_id st lid t et g = GliResult.notFound ↔
      ¬∃ l ∈ st.learners, l.id = lid) ∧
    ((∃ l ∈ st.learners, l.id = lid) →
      (∀ r ∈ selectedScores st lid t et, r.score ≠ none) →
      ∃ rep, get_learner_by_id st lid t et g = GliResult.ok rep) := by
  cases hh : (st.learners.filter (fun l => l.id == lid)).head? with
  | none =>
    have hnil := List.head?_eq_none_iff.mp hh
    have hcontra : ¬∃ l ∈ st.learners, l.id = lid := by
      rintro ⟨l, hl, hid⟩
      have hmem : l ∈ st.learners.filter (fun l => l.id == lid) :=
        List.mem_filter.mpr ⟨hl, by simp [hid]⟩
      rw [hnil] at hmem
      cases hmem
    constructor
    · constructor
      · intro _; exact hcontra
      · intro _; simp only [get_learner_by_id, hh]
    · intro hex; exact absurd hex hcontra
  | some learner =>
    have hex : ∃ l ∈ st.learners, l.id = lid := by
      have hmem : learner ∈ st.learners.filter (fun l => l.id == lid) :=
        List.mem_of_mem_head? (by rw [hh]; rfl)
      rcases List.mem_filter.mp hmem with ⟨hm, hid⟩
      exact ⟨learner, hm, by simpa using hid⟩
    constructor
    · constructor
      · intro habs
        simp only [get_learner_by_id, hh] at habs
        split at habs <;> simp at habs
      · intro hno; exact absurd hex hno
    · intro _ hnn
      rcases @buildMarks_isSome st t et (selectedScores st lid t et) hnn with ⟨ms, hms⟩
      exact ⟨mkReport learner (selectedScores st lid t et) ms,
        by simp only [get_learner_by_id, hh, hms]⟩

theorem C6_notfound_iff_report_witness :
    ∃ rep, get_learner_by_id SW 1 none none none = GliResult.ok rep :=
  (C6_notfound_iff_report SW 1 none none none).2
    ⟨⟨1, "Alice", "G1"⟩, by simp [SW], rfl⟩
    (by
      rw [SW_selected]
      intro r hr
      simp only [List.mem_cons, List.not_mem_nil, or_false] at hr
      rcases hr with rfl | rfl <;> simp)

/-- C6 counterexample: on store `B6` learner 1 exists, yet the call
neither reports NotFound nor returns a report — it raises `TypeError`
(a NULL score row), refuting "for every existing learner_id a report
record is returned". -/
theorem C6_counterexample :
    (∃ l ∈ B6.learners, l.id = 1) ∧
    get_learner_by_id B6 1 none none none ≠ GliResult.notFound ∧
    ∀ rep, get_learner_by_id B6 1 none none none ≠ GliResult.ok rep := by
  refine ⟨⟨⟨1, "Bob", "G1"⟩, by simp [B6], rfl⟩, ?_, ?_⟩
  · rw [B6_eval]; simp
  · intro rep; rw [B6_eval]; simp

/-- C7: the marks list of every returned report is sorted ascending by
subject name under the lexicographic (code-point) order `strLe`, for
every store — hence regardless of score-row store order. -/
theorem C7_marks_sorted_by_subject (st : Store) (lid : Nat)
    (t et g : Option String) (rep : LearnerReport)
    (h : get_learner_by_id st lid t et g = GliResult.ok rep) :
    rep.marks.Pairwise (fun a b => strLe a.subject b.subject = true) := by
  rcases gli_ok_elim h with ⟨learner, -, ms, hms, hrep⟩
  subst hrep
  have hsorted : List.Pairwise bySubject (selectedScores st lid t et) :=
    List.sorted_insertionSort bySubject (rawScores st lid t et)
  have h1 : List.Pairwise (fun a b : String => strLe a b = true)
      ((selectedScores st lid t et).map (fun r => r.subject)) :=
    List.pairwise_map.mpr hsorted
  rw [← buildMarks_map_subject hms] at h1
  simpa [mkReport] using List.pairwise_map.mp h1

theorem C7_marks_sorted_by_subject_witness :
    SWrep.marks.Pairwise (fun a b => strLe a.subject b.subject = true) :=
  C7_marks_sorted_by_subject SW 1 none none none SWrep SW_eval

/-- C8: for a grade with no matching learners, `get_broadsheet_data`
returns the global subject list together with an empty learner list —
the function is total, so no failure occurs. -/
theorem C8_broadsheet_empty_grade (st : Store) (g : String)
    (h : ∀ l ∈ st.learners, l.grade ≠ g) :
    get_broadsheet_data st g = { subjects := globalSubjects st, learners := [] } := by
  have hfil : st.learners.filter (fun l => l.grade == g) = [] :=
    List.filter_eq_nil_iff.mpr (by intro a ha; simpa using h a ha)
  have hbl : broadsheetLearners st g = [] := by
    rw [broadsheetLearners, hfil]; rfl
  simp only [get_broadsheet_data, hbl]
  rfl

theorem C8_broadsheet_empty_grade_witness :
    get_broadsheet_data SW "G2" = { subjects := globalSubjects SW, learners := [] } :=
  C8_broadsheet_empty_grade SW "G2" (by decide)

/-- C9: in the broadsheet pivot, a learner's mapping at a subject name
is exactly the score of the LAST row for that learner and subject in
query-result order (`dictGet` yields it through map-overwrite
semantics), and the subject is absent from the mapping exactly when the
learner has no score row for it. -/
theorem C9_pivot_last_write_wins (st : Store) (g : String) (bl : BLearner)
    (h : bl ∈ (get_broadsheet_data st g).learners) (sb : String) :
    dictGet bl.marks sb =
      ((broadsheetRows st g).filter
          (fun r => r.learner_id == bl.id && r.subject == sb)).getLast?.map
        (fun r => r.score) ∧
    (dictGet bl.marks sb = none ↔
      ∀ r ∈ broadsheetRows st g, ¬(r.learner_id = bl.id ∧ r.subject = sb)) := by
  have h1 : dictGet bl.marks sb =
      ((broadsheetRows st g).filter
          (fun r => r.learner_id == bl.id && r.subject == sb)).getLast?.map
        (fun r => r.score) := by
    rw [broadsheet_marks_of_mem h, pivot_lookup]
  refine ⟨h1, ?_⟩
  rw [h1, Option.map_eq_none', List.getLast?_eq_none_iff, List.filter_eq_nil_iff]
  constructor
  · intro hall r hr hmem
    have := hall r hr
    simp [hmem.1, hmem.2] at this
  · intro hall r hr
    simp only [Bool.and_eq_true, beq_iff_eq]
    intro hmem
    exact hall r hr ⟨hmem.1, hmem.2⟩

theorem C9_pivot_last_write_wins_witness :
    dictGet SWbl.marks "Math" =
      ((broadsheetRows SW "G1").filter
          (fun r => r.learner_id == SWbl.id && r.subject == "Math")).getLast?.map
        (fun r => r.score) ∧
    (dictGet SWbl.marks "Math" = none ↔
      ∀ r ∈ broadsheetRows SW "G1",
        ¬(r.learner_id = SWbl.id ∧ r.subject = "Math")) :=
  C9_pivot_last_write_wins SW "G1" SWbl (by rw [SW_bs]; simp) "Math"

/-- C10: an empty-string `term`, `exam_type` or `grade` argument is
Python-falsy, so `get_learner_by_id` behaves exactly as with the
argument absent: no score filter is added (also not to the class
statistics, which share the same truthiness tests) and the empty-string
grade does not replace the learner's stored grade. -/
theorem C10_empty_string_filters_ignored (st : Store) (lid : Nat)
    (t et g : Option String) :
    (get_learner_by_id st lid (some "") et g = get_learner_by_id st lid none et g) ∧
    (get_learner_by_id st lid t (some "") g = get_learner_by_id st lid t none g) ∧
    (get_learner_by_id st lid t et (some "") = get_learner_by_id st lid t et none) := by
  refine ⟨?_, ?_, rfl⟩
  · unfold get_learner_by_id
    simp only [selectedScores, rawScores_term_falsy (show truthy (some "") = false by rfl),
      buildMarks_term_falsy (show truthy (some "") = false by rfl)]
  · unfold get_learner_by_id
    simp only [selectedScores, rawScores_exam_falsy (show truthy (some "") = false by rfl),
      buildMarks_exam_falsy (show truthy (some "") = false by rfl)]
